import Mathlib

/-!
# Verification of the BOM-observation to APRS/CWOP report pipeline

A shallow embedding, in Lean 4, of the core of `BOM2CWOP.py` (and its twin
`BOM2CWOP_Version2.1.py`): the field formatter `str_or_dots`, the report
assembler `make_aprs_wx`, the observation encoder `bom_json_to_aprs` with its
per-field unit conversions and position rendering, the wind-direction
resolution through `cardinal_lookup`, the station resolver
`determine_aprs_call_for_file`, and the session client's `close`.

Modelling choices, used throughout:

* Python floats are modelled as exact rational numbers (`ℚ`).  Decimal
  formatting (`%d`, `%.0f`, `%.2f`, `zfill`) is modelled exactly, with
  round-half-to-even on the rational value, matching CPython's correctly
  rounded float formatting on the exact value of the float.
* Python values that can appear in a decoded JSON observation are modelled by
  the inductive type `Value` (null, int, float, string).  `float(x)` is
  modelled by `pyFloat`; the string grammar accepted covers optional
  surrounding whitespace, an optional sign, a decimal mantissa and an optional
  exponent (the `inf`/`nan` words and `_` digit separators of CPython are not
  modelled; no input of this program uses them).
* An observation dictionary is an association list `Obs`; `Obs.get` models
  `dict.get` with a default.
* Rational arithmetic is written with the kernel-computable helpers
  `qAdd`, `qSub`, `qMul` and `mkRat` (proved equal to `+`, `-`, `*`, `/`
  below), so that every definition evaluates on concrete inputs.
-/

/-! ## Kernel-computable rational arithmetic -/

/-- Addition on `ℚ` via `mkRat`, definitionally computable. -/
def qAdd (a b : ℚ) : ℚ := mkRat (a.num * b.den + b.num * a.den) (a.den * b.den)

/-- Subtraction on `ℚ` via `mkRat`, definitionally computable. -/
def qSub (a b : ℚ) : ℚ := mkRat (a.num * b.den - b.num * a.den) (a.den * b.den)

/-- Multiplication on `ℚ` via `mkRat`, definitionally computable. -/
def qMul (a b : ℚ) : ℚ := mkRat (a.num * b.num) (a.den * b.den)

/-- Embedding of an integer into `ℚ` via `mkRat`, definitionally computable. -/
def intToQ (n : ℤ) : ℚ := mkRat n 1

/-! ## Decimal formatting primitives (Python `%d`, `%.0f`, `%.2f`, `zfill`) -/

/-- The decimal digit character for `d % 10`. -/
def digitChar (d : Nat) : Char :=
  match d with
  | 0 => '0' | 1 => '1' | 2 => '2' | 3 => '3' | 4 => '4'
  | 5 => '5' | 6 => '6' | 7 => '7' | 8 => '8' | _ => '9'

/-- Fuelled decimal rendering of a natural number (most significant digit
first); `fuel > n` always suffices. -/
def natToDecAux : Nat → Nat → List Char
  | 0, _ => []
  | fuel + 1, n =>
    if n < 10 then [digitChar n]
    else natToDecAux fuel (n / 10) ++ [digitChar (n % 10)]

/-- Decimal rendering of a natural number, e.g. `natToDecL 1050 = ['1','0','5','0']`.
This is Python's `"%d" % n` for `n ≥ 0`. -/
def natToDecL (n : Nat) : List Char := natToDecAux (n + 1) n

/-- Left-pad a character list with `'0'` up to width `k` (no sign handling):
the zero padding of Python's `%0kd` on a non-negative value. -/
def padZerosL (l : List Char) (k : Nat) : List Char :=
  List.replicate (k - l.length) '0' ++ l

/-- Python's `str.zfill(w)`: left-pad with `'0'` to total width `w`,
inserting the zeros after a leading sign character if there is one. -/
def zfillL (l : List Char) (w : Nat) : List Char :=
  match l with
  | c :: rest =>
    if c = '-' ∨ c = '+' then c :: (List.replicate (w - (rest.length + 1)) '0' ++ rest)
    else List.replicate (w - l.length) '0' ++ l
  | [] => List.replicate w '0'

/-- A run of `n` placeholder dots: Python's `'.' * n`. -/
def dotsL (n : Nat) : List Char := List.replicate n '.'

/-- Truncation of a rational toward zero: Python's `int(float)`. -/
def truncRat (q : ℚ) : ℤ :=
  if 0 ≤ q.num then Int.ofNat (q.num.toNat / q.den)
  else -Int.ofNat ((-q.num).toNat / q.den)

/-- Round to the nearest integer, ties to even: the rounding CPython applies
when formatting a float with `%.0f` (on the exact value, here a rational). -/
def roundHalfEven (q : ℚ) : ℤ :=
  if qSub q (intToQ ⌊q⌋) < mkRat 1 2 then ⌊q⌋
  else if mkRat 1 2 < qSub q (intToQ ⌊q⌋) then ⌊q⌋ + 1
  else if ⌊q⌋ % 2 = 0 then ⌊q⌋ else ⌊q⌋ + 1

/-- Python `'%0{len}d' % v` on an integer `v`: zero-padded decimal rendering,
total width `len` including a leading `'-'` for negative values. -/
def fmtIntPadL (v : ℤ) (len : Nat) : List Char :=
  if v < 0 then '-' :: padZerosL (natToDecL (-v).toNat) (len - 1)
  else padZerosL (natToDecL v.toNat) len

/-- Python `'%0{len}.0f' % q` on a float `q`: round to a whole number
(half to even) and render zero-padded to total width `len`; a negative input
keeps its sign (CPython renders `-0` for small negative values). -/
def fmtFloatPadL (q : ℚ) (len : Nat) : List Char :=
  if q < 0 then '-' :: padZerosL (natToDecL (-(roundHalfEven q)).toNat) (len - 1)
  else padZerosL (natToDecL (roundHalfEven q).toNat) len

/-- Digits of `r` hundredths rendered as `d.dd` (unsigned part of `%.2f`). -/
def fmtF2core (r : Nat) : List Char :=
  natToDecL (r / 100) ++ '.' :: padZerosL (natToDecL (r % 100)) 2

/-- Python `'%02.2f' % q`: two decimal places, rounding half to even (the
minimum width 2 never pads, since `d.dd` already has four characters). -/
def fmtF2L (q : ℚ) : List Char :=
  if q < 0 then '-' :: fmtF2core (-(roundHalfEven (qMul q (mkRat 100 1)))).toNat
  else fmtF2core (roundHalfEven (qMul q (mkRat 100 1))).toNat

/-! ## Python values, `float()` parsing, observation dictionaries -/

/-- A Python value as it may occur in a decoded BOM JSON observation:
`None`, an `int`, a `float` (modelled as an exact rational) or a `str`. -/
inductive Value where
  | none : Value
  | int : ℤ → Value
  | float : ℚ → Value
  | str : String → Value
deriving DecidableEq

/-- The whitespace characters Python strips around a numeric string. -/
def isPySpace (c : Char) : Bool :=
  c == ' ' || c == '\t' || c == '\n' || c == '\r' || c == '\x0b' || c == '\x0c'

/-- Read a maximal run of decimal digits, returning their values and the rest. -/
def readDigits : List Char → List Nat × List Char
  | [] => ([], [])
  | c :: rest =>
    if c.isDigit then
      let p := readDigits rest
      ((c.toNat - 48) :: p.1, p.2)
    else ([], c :: rest)

/-- The natural number denoted by a list of decimal digit values. -/
def digitsVal (ds : List Nat) : Nat := ds.foldl (fun a d => 10 * a + d) 0

/-- Read an optional leading sign; `true` means negative. -/
def readSign : List Char → Bool × List Char
  | '-' :: rest => (true, rest)
  | '+' :: rest => (false, rest)
  | l => (false, l)

/-- Scale a rational by `10 ^ e` for a (possibly negative) integer `e`. -/
def applyExp (q : ℚ) (e : ℤ) : ℚ :=
  if 0 ≤ e then qMul q (mkRat (10 ^ e.toNat) 1)
  else mkRat q.num (q.den * 10 ^ (-e).toNat)

/-- Parse the exponent part (after `e`/`E`) and finish: sign, at least one
digit, then only trailing whitespace. -/
def finishExp (mant : ℚ) (rest : List Char) : Option ℚ :=
  let es := readSign rest
  let ed := readDigits es.2
  if ed.1.isEmpty then Option.none
  else if (ed.2.dropWhile isPySpace).isEmpty then
    some (applyExp mant (if es.1 then -(Int.ofNat (digitsVal ed.1)) else Int.ofNat (digitsVal ed.1)))
  else Option.none

/-- Python `float(str)` on the grammar this program can meet: optional
surrounding whitespace, optional sign, decimal digits with an optional
fractional part (at least one digit in mantissa), optional `e`/`E` exponent. -/
def parseFloatChars (cs : List Char) : Option ℚ :=
  let s := readSign (cs.dropWhile isPySpace)
  let ip := readDigits s.2
  let fp : List Nat × List Char :=
    match ip.2 with
    | '.' :: rest => readDigits rest
    | _ => ([], ip.2)
  if ip.1.isEmpty ∧ fp.1.isEmpty then Option.none
  else
    let mant : ℚ :=
      mkRat (Int.ofNat (digitsVal ip.1 * 10 ^ fp.1.length + digitsVal fp.1)) (10 ^ fp.1.length)
    let sgnMant := if s.1 then -mant else mant
    match fp.2 with
    | 'e' :: rest => finishExp sgnMant rest
    | 'E' :: rest => finishExp sgnMant rest
    | rest => if (rest.dropWhile isPySpace).isEmpty then some sgnMant else Option.none

/-- Python `float(x)` on a `Value`: fails (raises, modelled as `none`) on
`None` and on non-numeric strings. -/
def pyFloat : Value → Option ℚ
  | Value.none => Option.none
  | Value.int n => some (intToQ n)
  | Value.float q => some q
  | Value.str s => parseFloatChars s.data

/-- An observation dictionary: association list from field names to values. -/
def Obs : Type := List (String × Value)

/-- Python `obs.get(key, default)`. -/
def Obs.get (o : Obs) (k : String) (d : Value) : Value :=
  match List.lookup k o with
  | some v => v
  | Option.none => d

/-! ## Embedding of the source functions -/

/-- `str_or_dots(number, length)` from the source: `None` renders as a run of
`length` dots; an `int` renders as `'%0{length}d'`; a `float` as
`'%0{length}.0f'`.  Any other type makes the dict lookup on the type name
raise `KeyError`, modelled as `Option.none`. -/
def str_or_dots : Value → Nat → Option String
  | Value.none, len => some (String.mk (dotsL len))
  | Value.int v, len => some (String.mk (fmtIntPadL v len))
  | Value.float q, len => some (String.mk (fmtFloatPadL q len))
  | Value.str _, _ => Option.none

/-- `make_aprs_wx` from the source: assemble the report from the template
`'!%s/%s_%s/%sg%st%sP%sh%sb%s%s'` with the seven weather fields formatted by
`str_or_dots` at widths 3, 3, 3, 3, 3, 2, 5.  `Option.none` models an
exception escaping from `str_or_dots`. -/
def make_aprs_wx (lat_str lon_str comment : String)
    (wind_dir wind_speed wind_gust temperature rain_since_midnight humidity pressure : Value) :
    Option String :=
  match str_or_dots wind_dir 3, str_or_dots wind_speed 3, str_or_dots wind_gust 3,
        str_or_dots temperature 3, str_or_dots rain_since_midnight 3,
        str_or_dots humidity 2, str_or_dots pressure 5 with
  | some d, some s, some g, some t, some r, some h, some p =>
    some ("!" ++ lat_str ++ "/" ++ lon_str ++ "_" ++ d ++ "/" ++ s ++ "g" ++ g
      ++ "t" ++ t ++ "P" ++ r ++ "h" ++ h ++ "b" ++ p ++ comment)
  | _, _, _, _, _, _, _ => Option.none

/-- The fixed 16-point compass table of the source, plus `CALM`. -/
def cardinal_lookup : List (String × ℤ) :=
  [("N", 0), ("NNE", 22), ("NE", 45), ("ENE", 67), ("E", 90), ("ESE", 112),
   ("SE", 135), ("SSE", 157), ("S", 180), ("SSW", 202), ("SW", 225),
   ("WSW", 247), ("W", 270), ("WNW", 292), ("NW", 315), ("NNW", 337), ("CALM", 0)]

/-- The wind-direction resolution of `bom_json_to_aprs`: the table is
consulted first (only a string can be a key), otherwise `int(float(value))`
is attempted, and failure yields `None`. -/
def windDirResolve (v : Value) : Option ℤ :=
  match v with
  | Value.str s =>
    match List.lookup s cardinal_lookup with
    | some d => some d
    | Option.none => (pyFloat (Value.str s)).map truncRat
  | _ => (pyFloat v).map truncRat

/-- `temp_f = float(obs.get('air_temp')) * (9.0 / 5.0) + 32`, guarded. -/
def temp_conv (o : Obs) : Option ℚ :=
  (pyFloat (Obs.get o "air_temp" Value.none)).map
    (fun c => qAdd (qMul c (mkRat 9 5)) (mkRat 32 1))

/-- `press_hpa = int(float(obs.get('press')) * 10)`, guarded. -/
def press_conv (o : Obs) : Option ℤ :=
  (pyFloat (Obs.get o "press" Value.none)).map (fun p => truncRat (qMul p (mkRat 10 1)))

/-- `rain_in = float(obs.get('rain_trace')) * 3.93700787`, guarded. -/
def rain_conv (o : Obs) : Option ℚ :=
  (pyFloat (Obs.get o "rain_trace" Value.none)).map
    (fun m => qMul m (mkRat 393700787 100000000))

/-- `humidity = float(obs.get('rel_hum'))`, guarded. -/
def hum_conv (o : Obs) : Option ℚ := pyFloat (Obs.get o "rel_hum" Value.none)

/-- `wind_speed = float(obs.get('wind_spd_kt')) * 1.15077945`, guarded. -/
def wspd_conv (o : Obs) : Option ℚ :=
  (pyFloat (Obs.get o "wind_spd_kt" Value.none)).map
    (fun k => qMul k (mkRat 115077945 100000000))

/-- `wind_gust = float(obs.get('gust_kt')) * 1.15077945`, guarded. -/
def wgust_conv (o : Obs) : Option ℚ :=
  (pyFloat (Obs.get o "gust_kt" Value.none)).map
    (fun k => qMul k (mkRat 115077945 100000000))

/-- The wind-direction value of an observation, resolved. -/
def wind_dir_conv (o : Obs) : Option ℤ := windDirResolve (Obs.get o "wind_dir" Value.none)

/-- The latitude token of `bom_json_to_aprs`:
`'%02d' % abs(int(lat))`, then `('%02.2f' % (abs(lat - int(lat)) * 60)).zfill(5)`,
then `'N' if lat > 0 else 'S'`. -/
def latTokenOfRat (lat : ℚ) : String :=
  let d := truncRat lat
  let lat_minute := qMul |qSub lat (intToQ d)| (mkRat 60 1)
  let lat_min_str := zfillL (fmtF2L lat_minute) 5
  let lat_dir := if 0 < lat then 'N' else 'S'
  String.mk (padZerosL (natToDecL d.natAbs) 2 ++ lat_min_str ++ [lat_dir])

/-- The longitude token of `bom_json_to_aprs`: as the latitude token but with
a three-digit degree field and `'W' if lon < 0 else 'E'`. -/
def lonTokenOfRat (lon : ℚ) : String :=
  let d := truncRat lon
  let lon_minute := qMul |qSub lon (intToQ d)| (mkRat 60 1)
  let lon_min_str := zfillL (fmtF2L lon_minute) 5
  let lon_dir := if lon < 0 then 'W' else 'E'
  String.mk (padZerosL (natToDecL d.natAbs) 3 ++ lon_min_str ++ [lon_dir])

/-- Wrap an optional float conversion result back into a Python value. -/
def wrapF : Option ℚ → Value
  | Option.none => Value.none
  | some q => Value.float q

/-- Wrap an optional int conversion result back into a Python value. -/
def wrapI : Option ℤ → Value
  | Option.none => Value.none
  | some n => Value.int n

/-- `bom_json_to_aprs(obs, comment)` from the source, for a present
observation dictionary: parse the position (defaults `0.0`), refuse
(`Option.none`) if either coordinate fails `float()`, convert the seven
weather fields with failures becoming `None`, and assemble via
`make_aprs_wx`. -/
def bom_json_to_aprs (obs : Obs) (comment : String) : Option String :=
  match pyFloat (Obs.get obs "lat" (Value.float 0)) with
  | Option.none => Option.none
  | some lat =>
    match pyFloat (Obs.get obs "lon" (Value.float 0)) with
    | Option.none => Option.none
    | some lon =>
      make_aprs_wx (latTokenOfRat lat) (lonTokenOfRat lon) comment
        (wrapI (wind_dir_conv obs)) (wrapF (wspd_conv obs)) (wrapF (wgust_conv obs))
        (wrapF (temp_conv obs)) (wrapF (rain_conv obs)) (wrapF (hum_conv obs))
        (wrapI (press_conv obs))

/-- The fallback login identity `APRS_CALL` from the settings block. -/
def APRS_CALL : String := "VK5TRM-13"

/-- `os.path.basename`: the part of the path after the last `'/'`. -/
def basename (s : String) : String :=
  String.mk ((s.data.reverse.takeWhile (fun c => ¬ c = '/')).reverse)

/-- `determine_aprs_call_for_file(station_filename, mapping)` from the source:
an empty mapping yields `APRS_CALL`; an entry under the filename (falsy
entries replaced by `APRS_CALL`) wins; otherwise an entry under the basename;
otherwise `APRS_CALL`. -/
def determine_aprs_call_for_file (station_filename : String)
    (mapping : List (String × String)) : String :=
  if mapping = [] then APRS_CALL
  else
    match List.lookup station_filename mapping with
    | some v => if v = "" then APRS_CALL else v
    | Option.none =>
      match List.lookup (basename station_filename) mapping with
      | some v => if v = "" then APRS_CALL else v
      | Option.none => APRS_CALL

/-! ## Session client -/

/-- The state of an `APRSClient`: `sock` is `none` before `connect` and after
`close`; the payload is an abstract socket identifier. -/
structure APRSClient where
  sock : Option Nat
deriving DecidableEq

/-- A socket operation that may raise, driven by a failure oracle. -/
def sockOp (fails : Bool) : Except String Unit :=
  if fails then Except.error "OSError" else Except.ok ()

/-- `APRSClient.close` from the source: if a socket is present, attempt
`shutdown` and `close`, swallowing any exception from either (the result of
`sockOp` is discarded, which is exactly `try ... except: pass`), then clear
`self.sock`.  The whole method never raises, so the result is always
`Except.ok`. -/
def APRSClient.close (shutdownFails closeFails : Bool) (c : APRSClient) :
    Except String APRSClient :=
  match c.sock with
  | Option.none => Except.ok c
  | some _ =>
    let _ := sockOp shutdownFails
    let _ := sockOp closeFails
    Except.ok { c with sock := Option.none }

/-! ## Spec-side definitions (for refinement comparisons only) -/

/-- Modelled from the spec (§4.4): derive an identity token from a station
name by truncating at the first whitespace boundary or to a maximum token
length of 9 characters, replacing residual whitespace with underscores. -/
def deriveIdentityFromName (name : String) : String :=
  String.mk (((name.data.takeWhile (fun c => ¬ c = ' ')).take 9).map
    (fun c => if c = ' ' then '_' else c))

/-- Modelled from the spec (§4.4, claim C2): the claimed resolution order —
(1) a present, non-empty mapping entry for the file or its basename;
(2) otherwise an identity derived from the station name;
(3) otherwise the configured default identity. -/
def claimed_resolve (station_filename stationName : String)
    (mapping : List (String × String)) (defaultIdentity : String) : String :=
  let entry : Option String :=
    match List.lookup station_filename mapping with
    | some v => if v = "" then Option.none else some v
    | Option.none =>
      match List.lookup (basename station_filename) mapping with
      | some v => if v = "" then Option.none else some v
      | Option.none => Option.none
  match entry with
  | some v => v
  | Option.none =>
    let d := deriveIdentityFromName stationName
    if d = "" then defaultIdentity else d

/-- The latitude token shape claimed in the spec: two degree digits, two
minute digits, a point, two hundredth digits, then `N` or `S`. -/
def latShapeB (s : String) : Bool :=
  match s.data with
  | [d1, d2, m1, m2, p, h1, h2, dir] =>
    d1.isDigit && d2.isDigit && m1.isDigit && m2.isDigit && p == '.' &&
    h1.isDigit && h2.isDigit && (dir == 'N' || dir == 'S')
  | _ => false

/-- The longitude token shape claimed in the spec: three degree digits, two
minute digits, a point, two hundredth digits, then `E` or `W`. -/
def lonShapeB (s : String) : Bool :=
  match s.data with
  | [d1, d2, d3, m1, m2, p, h1, h2, dir] =>
    d1.isDigit && d2.isDigit && d3.isDigit && m1.isDigit && m2.isDigit && p == '.' &&
    h1.isDigit && h2.isDigit && (dir == 'E' || dir == 'W')
  | _ => false

/-- The total field formatter on an optional float conversion result: what
`str_or_dots` computes on a value produced by the conversion pipeline. -/
def strOrDotsF (o : Option ℚ) (n : Nat) : String :=
  match o with
  | Option.none => String.mk (dotsL n)
  | some q => String.mk (fmtFloatPadL q n)

/-- The total field formatter on an optional int conversion result. -/
def strOrDotsI (o : Option ℤ) (n : Nat) : String :=
  match o with
  | Option.none => String.mk (dotsL n)
  | some v => String.mk (fmtIntPadL v n)

/-- The number of characters of Python's plain `'%d' % v`: the decimal
digits of `|v|`, plus one for the sign when `v` is negative. -/
def intDecLen (v : ℤ) : Nat :=
  if v < 0 then (natToDecL (-v).toNat).length + 1 else (natToDecL v.toNat).length

/-- The number of characters of Python's plain `'%.0f' % q`: the decimal
digits of the rounded magnitude, plus one for the sign when `q` is
negative. -/
def floatDecLen (q : ℚ) : Nat :=
  if q < 0 then (natToDecL (-(roundHalfEven q)).toNat).length + 1
  else (natToDecL (roundHalfEven q).toNat).length

/-! ## Bridge lemmas for the rational helpers -/

theorem qAdd_eq (a b : ℚ) : qAdd a b = a + b := by
  have ha : (a.den : ℚ) ≠ 0 := Nat.cast_ne_zero.mpr a.den_nz
  have hb : (b.den : ℚ) ≠ 0 := Nat.cast_ne_zero.mpr b.den_nz
  rw [qAdd, Rat.mkRat_eq_div]
  conv_rhs => rw [← Rat.num_div_den a, ← Rat.num_div_den b]
  push_cast
  field_simp
  try ring

theorem qSub_eq (a b : ℚ) : qSub a b = a - b := by
  have ha : (a.den : ℚ) ≠ 0 := Nat.cast_ne_zero.mpr a.den_nz
  have hb : (b.den : ℚ) ≠ 0 := Nat.cast_ne_zero.mpr b.den_nz
  rw [qSub, Rat.mkRat_eq_div]
  conv_rhs => rw [← Rat.num_div_den a, ← Rat.num_div_den b]
  push_cast
  field_simp
  try ring

theorem qMul_eq (a b : ℚ) : qMul a b = a * b := by
  have ha : (a.den : ℚ) ≠ 0 := Nat.cast_ne_zero.mpr a.den_nz
  have hb : (b.den : ℚ) ≠ 0 := Nat.cast_ne_zero.mpr b.den_nz
  rw [qMul, Rat.mkRat_eq_div]
  conv_rhs => rw [← Rat.num_div_den a, ← Rat.num_div_den b]
  push_cast
  field_simp
  try ring

theorem intToQ_eq (n : ℤ) : intToQ n = (n : ℚ) := by
  rw [intToQ, Rat.mkRat_eq_div]
  simp

/-! ## Supporting lemmas: digits and padding -/

theorem digitChar_isDigit (d : Nat) : (digitChar d).isDigit = true := by
  unfold digitChar
  split <;> decide

theorem natToDecAux_length_pos :
    ∀ fuel n, n < fuel → 0 < (natToDecAux fuel n).length := by
  intro fuel
  induction fuel with
  | zero => intro n h; omega
  | succ f ih =>
    intro n h
    unfold natToDecAux
    by_cases h10 : n < 10
    · simp [h10]
    · simp [h10]

theorem natToDecAux_digits :
    ∀ fuel n, n < fuel → ∀ c ∈ natToDecAux fuel n, c.isDigit = true := by
  intro fuel
  induction fuel with
  | zero => intro n h; omega
  | succ f ih =>
    intro n h c hc
    unfold natToDecAux at hc
    by_cases h10 : n < 10
    · simp [h10] at hc
      subst hc
      exact digitChar_isDigit n
    · simp [h10] at hc
      have hdix : n / 10 < f := by
        have := Nat.div_lt_self (show 0 < n by omega) (show 1 < 10 by omega)
        omega
      rcases hc with hc | hc
      · exact ih (n / 10) hdix c hc
      · subst hc
        exact digitChar_isDigit (n % 10)

theorem natToDecAux_length_le :
    ∀ fuel n k, n < fuel → 1 ≤ k → n < 10 ^ k → (natToDecAux fuel n).length ≤ k := by
  intro fuel
  induction fuel with
  | zero => intro n k h; omega
  | succ f ih =>
    intro n k h hk hnk
    unfold natToDecAux
    by_cases h10 : n < 10
    · simpa [h10] using hk
    · simp [h10]
      have hk2 : 2 ≤ k := by
        by_contra hcon
        have hk1 : k = 1 := by omega
        subst hk1
        simp at hnk
        omega
      have hdix : n / 10 < f := by
        have := Nat.div_lt_self (show 0 < n by omega) (show 1 < 10 by omega)
        omega
      have hdiv : n / 10 < 10 ^ (k - 1) := by
        apply Nat.div_lt_of_lt_mul
        have hpow : 10 ^ k = 10 * 10 ^ (k - 1) := by
          rw [← pow_succ']
          congr 1
          omega
        omega
      have := ih (n / 10) (k - 1) hdix (by omega) hdiv
      omega

theorem natToDecL_length_pos (n : Nat) : 0 < (natToDecL n).length :=
  natToDecAux_length_pos (n + 1) n (Nat.lt_succ_self n)

theorem natToDecL_digits (n : Nat) : ∀ c ∈ natToDecL n, c.isDigit = true :=
  natToDecAux_digits (n + 1) n (Nat.lt_succ_self n)

theorem natToDecL_length_le (n k : Nat) (hk : 1 ≤ k) (h : n < 10 ^ k) :
    (natToDecL n).length ≤ k :=
  natToDecAux_length_le (n + 1) n k (Nat.lt_succ_self n) hk h

theorem padZerosL_length (l : List Char) (k : Nat) (h : l.length ≤ k) :
    (padZerosL l k).length = k := by
  simp [padZerosL]
  omega

theorem padZerosL_digits (l : List Char) (k : Nat) (h : ∀ c ∈ l, c.isDigit = true) :
    ∀ c ∈ padZerosL l k, c.isDigit = true := by
  intro c hc
  simp [padZerosL] at hc
  rcases hc with ⟨-, rfl⟩ | hc
  · decide
  · exact h c hc

theorem zfillL_of_head_digit (c : Char) (cs : List Char) (w : Nat) (h : c.isDigit = true) :
    zfillL (c :: cs) w = List.replicate (w - (cs.length + 1)) '0' ++ (c :: cs) := by
  have hns : ¬(c = '-' ∨ c = '+') := by
    rintro (rfl | rfl) <;> simp at h
  simp [zfillL, hns]

/-! ## Supporting lemmas: rounding and truncation -/

theorem roundHalfEven_cases (q : ℚ) :
    roundHalfEven q = ⌊q⌋ ∨ roundHalfEven q = ⌊q⌋ + 1 := by
  unfold roundHalfEven
  split_ifs <;> simp

theorem roundHalfEven_nonneg (q : ℚ) (h : 0 ≤ q) : 0 ≤ roundHalfEven q := by
  have hf : (0:ℤ) ≤ ⌊q⌋ := Int.floor_nonneg.mpr h
  rcases roundHalfEven_cases q with h1 | h1 <;> omega

theorem roundHalfEven_le_of_lt (q : ℚ) (n : ℤ) (h : q < (n : ℚ)) : roundHalfEven q ≤ n := by
  have hf : ⌊q⌋ < n := Int.floor_lt.mpr h
  rcases roundHalfEven_cases q with h1 | h1 <;> omega

theorem truncRat_of_nonneg (q : ℚ) (h : 0 ≤ q) : truncRat q = ⌊q⌋ := by
  have hn : 0 ≤ q.num := Rat.num_nonneg.mpr h
  rw [truncRat, if_pos hn, Rat.floor_def]
  obtain ⟨m, hm⟩ := Int.eq_ofNat_of_zero_le hn
  rw [hm, Int.toNat_natCast]
  exact Int.ofNat_ediv m q.den

theorem truncRat_of_neg (q : ℚ) (h : q < 0) : truncRat q = -⌊-q⌋ := by
  have hn : ¬ 0 ≤ q.num := by
    simpa [Rat.num_nonneg] using not_le.mpr h
  rw [truncRat, if_neg hn]
  congr 1
  rw [Rat.floor_def, Rat.num_neg_eq_neg_num, Rat.den_neg_eq_den]
  obtain ⟨m, hm⟩ := Int.eq_ofNat_of_zero_le (show (0:ℤ) ≤ -q.num by omega)
  rw [hm, Int.toNat_natCast]
  exact Int.ofNat_ediv m q.den

theorem sub_truncRat_abs_lt_one (x : ℚ) : |x - (truncRat x : ℚ)| < 1 := by
  rcases lt_or_le x 0 with hx | hx
  · rw [truncRat_of_neg x hx]
    have h1 := Int.floor_le (-x)
    have h2 := Int.lt_floor_add_one (-x)
    rw [abs_lt]
    push_cast at h1 h2 ⊢
    constructor <;> linarith
  · rw [truncRat_of_nonneg x hx]
    have h1 := Int.floor_le x
    have h2 := Int.lt_floor_add_one x
    rw [abs_lt]
    constructor <;> linarith

theorem truncRat_natAbs_lt (x : ℚ) (B : ℕ) (h : |x| < (B : ℚ)) :
    (truncRat x).natAbs < B := by
  rcases lt_or_le x 0 with hx | hx
  · rw [truncRat_of_neg x hx]
    have h1 : (0:ℤ) ≤ ⌊-x⌋ := Int.floor_nonneg.mpr (by linarith)
    have h2 : ⌊-x⌋ < (B : ℤ) := by
      rw [Int.floor_lt]
      rw [abs_of_neg hx] at h
      push_cast
      linarith
    omega
  · rw [truncRat_of_nonneg x hx]
    have h1 : (0:ℤ) ≤ ⌊x⌋ := Int.floor_nonneg.mpr hx
    have h2 : ⌊x⌋ < (B : ℤ) := by
      rw [Int.floor_lt]
      rw [abs_of_nonneg hx] at h
      push_cast
      linarith
    omega

theorem minute_eq (x : ℚ) :
    qMul |qSub x (intToQ (truncRat x))| (mkRat 60 1) = |x - (truncRat x : ℚ)| * 60 := by
  rw [qMul_eq, qSub_eq, intToQ_eq]
  norm_num [Rat.mkRat_eq_div]

/-! ## Supporting lemmas: minute and token shapes -/

theorem fmtF2core_shape (r : Nat) (h : r ≤ 6000) :
    ∃ ip fr : List Char, fmtF2core r = ip ++ '.' :: fr ∧
      1 ≤ ip.length ∧ ip.length ≤ 2 ∧ fr.length = 2 ∧
      (∀ c ∈ ip, c.isDigit = true) ∧ (∀ c ∈ fr, c.isDigit = true) := by
  refine ⟨natToDecL (r / 100), padZerosL (natToDecL (r % 100)) 2, rfl,
    natToDecL_length_pos _, ?_, ?_, natToDecL_digits _,
    padZerosL_digits _ _ (natToDecL_digits _)⟩
  · exact natToDecL_length_le _ 2 (by omega)
      (lt_of_lt_of_eq (show r / 100 < 100 by omega) (by norm_num))
  · exact padZerosL_length _ _ (natToDecL_length_le _ 2 (by omega)
      (lt_of_lt_of_eq (show r % 100 < 100 by omega) (by norm_num)))

theorem minuteStr_shape (q : ℚ) (h0 : 0 ≤ q) (h60 : q < 60) :
    ∃ a b e f : Char, zfillL (fmtF2L q) 5 = [a, b, '.', e, f] ∧
      a.isDigit = true ∧ b.isDigit = true ∧ e.isDigit = true ∧ f.isDigit = true := by
  have hq100 : qMul q (mkRat 100 1) = q * 100 := by
    rw [qMul_eq]
    norm_num [Rat.mkRat_eq_div]
  have hrn : 0 ≤ roundHalfEven (qMul q (mkRat 100 1)) := by
    rw [hq100]
    exact roundHalfEven_nonneg _ (by positivity)
  have hrle : roundHalfEven (qMul q (mkRat 100 1)) ≤ 6000 := by
    rw [hq100]
    exact roundHalfEven_le_of_lt _ 6000 (by push_cast; linarith)
  have hR : (roundHalfEven (qMul q (mkRat 100 1))).toNat ≤ 6000 := by omega
  obtain ⟨ip, fr, hcore, hip1, hip2, hfr2, hipd, hfrd⟩ := fmtF2core_shape _ hR
  rw [fmtF2L, if_neg (not_lt.mpr h0), hcore]
  obtain ⟨f1, f2, hfr⟩ := List.length_eq_two.mp hfr2
  subst hfr
  have hlen12 : ip.length = 1 ∨ ip.length = 2 := by omega
  rcases hlen12 with h1 | h2
  · obtain ⟨a, ha⟩ := List.length_eq_one.mp h1
    subst ha
    have hda : a.isDigit = true := hipd a (by simp)
    simp only [List.cons_append, List.nil_append]
    rw [zfillL_of_head_digit a _ 5 hda]
    exact ⟨'0', a, f1, f2, by simp, by decide, hda,
      hfrd f1 (by simp), hfrd f2 (by simp)⟩
  · obtain ⟨a, b, hab⟩ := List.length_eq_two.mp h2
    subst hab
    have hda : a.isDigit = true := hipd a (by simp)
    have hdb : b.isDigit = true := hipd b (by simp)
    simp only [List.cons_append, List.nil_append]
    rw [zfillL_of_head_digit a _ 5 hda]
    exact ⟨a, b, f1, f2, by simp, hda, hdb,
      hfrd f1 (by simp), hfrd f2 (by simp)⟩

theorem latTokenOfRat_shape (lat : ℚ) (h : |lat| < 100) :
    ∃ c1 c2 c3 c4 c5 c6 : Char,
      latTokenOfRat lat =
        String.mk [c1, c2, c3, c4, '.', c5, c6, if 0 < lat then 'N' else 'S'] ∧
      c1.isDigit = true ∧ c2.isDigit = true ∧ c3.isDigit = true ∧ c4.isDigit = true ∧
      c5.isDigit = true ∧ c6.isDigit = true := by
  have hdeg : (truncRat lat).natAbs < 100 := truncRat_natAbs_lt lat 100 (by exact_mod_cast h)
  have hdl : (padZerosL (natToDecL (truncRat lat).natAbs) 2).length = 2 :=
    padZerosL_length _ _ (natToDecL_length_le _ 2 (by omega)
      (lt_of_lt_of_eq hdeg (by norm_num)))
  obtain ⟨d1, d2, hdp⟩ := List.length_eq_two.mp hdl
  have hd1 : d1.isDigit = true :=
    padZerosL_digits _ _ (natToDecL_digits _) d1 (by rw [hdp]; simp)
  have hd2 : d2.isDigit = true :=
    padZerosL_digits _ _ (natToDecL_digits _) d2 (by rw [hdp]; simp)
  have habs := sub_truncRat_abs_lt_one lat
  have hm0 : 0 ≤ |lat - (truncRat lat : ℚ)| * 60 := by positivity
  have hm60 : |lat - (truncRat lat : ℚ)| * 60 < 60 := by
    have := abs_nonneg (lat - (truncRat lat : ℚ))
    nlinarith
  obtain ⟨m1, m2, m3, m4, hms, hm1, hm2, hm3, hm4⟩ := minuteStr_shape _ hm0 hm60
  refine ⟨d1, d2, m1, m2, m3, m4, ?_, hd1, hd2, hm1, hm2, hm3, hm4⟩
  simp only [latTokenOfRat]
  rw [minute_eq, hms, hdp]
  simp

theorem lonTokenOfRat_shape (lon : ℚ) (h : |lon| < 1000) :
    ∃ c1 c2 c3 c4 c5 c6 c7 : Char,
      lonTokenOfRat lon =
        String.mk [c1, c2, c3, c4, c5, '.', c6, c7, if lon < 0 then 'W' else 'E'] ∧
      c1.isDigit = true ∧ c2.isDigit = true ∧ c3.isDigit = true ∧ c4.isDigit = true ∧
      c5.isDigit = true ∧ c6.isDigit = true ∧ c7.isDigit = true := by
  have hdeg : (truncRat lon).natAbs < 1000 := truncRat_natAbs_lt lon 1000 (by exact_mod_cast h)
  have hdl : (padZerosL (natToDecL (truncRat lon).natAbs) 3).length = 3 :=
    padZerosL_length _ _ (natToDecL_length_le _ 3 (by omega)
      (lt_of_lt_of_eq hdeg (by norm_num)))
  obtain ⟨d1, d2, d3, hdp⟩ := List.length_eq_three.mp hdl
  have hd1 : d1.isDigit = true :=
    padZerosL_digits _ _ (natToDecL_digits _) d1 (by rw [hdp]; simp)
  have hd2 : d2.isDigit = true :=
    padZerosL_digits _ _ (natToDecL_digits _) d2 (by rw [hdp]; simp)
  have hd3 : d3.isDigit = true :=
    padZerosL_digits _ _ (natToDecL_digits _) d3 (by rw [hdp]; simp)
  have habs := sub_truncRat_abs_lt_one lon
  have hm0 : 0 ≤ |lon - (truncRat lon : ℚ)| * 60 := by positivity
  have hm60 : |lon - (truncRat lon : ℚ)| * 60 < 60 := by
    have := abs_nonneg (lon - (truncRat lon : ℚ))
    nlinarith
  obtain ⟨m1, m2, m3, m4, hms, hm1, hm2, hm3, hm4⟩ := minuteStr_shape _ hm0 hm60
  refine ⟨d1, d2, d3, m1, m2, m3, m4, ?_, hd1, hd2, hd3, hm1, hm2, hm3, hm4⟩
  simp only [lonTokenOfRat]
  rw [minute_eq, hms, hdp]
  simp

/-! ## Supporting lemmas: field widths and wrapped formatting -/

theorem stringMk_length (l : List Char) : (String.mk l).length = l.length := rfl

theorem fmtIntPadL_length (v : ℤ) (n : Nat) :
    (fmtIntPadL v n).length = max n (intDecLen v) := by
  rw [fmtIntPadL, intDecLen]
  by_cases hv : v < 0
  · rw [if_pos hv, if_pos hv]
    simp [padZerosL]
    omega
  · rw [if_neg hv, if_neg hv]
    simp [padZerosL]
    omega

theorem fmtFloatPadL_length (q : ℚ) (n : Nat) :
    (fmtFloatPadL q n).length = max n (floatDecLen q) := by
  rw [fmtFloatPadL, floatDecLen]
  by_cases hq : q < 0
  · rw [if_pos hq, if_pos hq]
    simp [padZerosL]
    omega
  · rw [if_neg hq, if_neg hq]
    simp [padZerosL]
    omega

theorem str_or_dots_wrapF (o : Option ℚ) (n : Nat) :
    str_or_dots (wrapF o) n = some (strOrDotsF o n) := by
  cases o <;> rfl

theorem str_or_dots_wrapI (o : Option ℤ) (n : Nat) :
    str_or_dots (wrapI o) n = some (strOrDotsI o n) := by
  cases o <;> rfl

theorem make_aprs_wx_wrapped (a b c : String) (wd p : Option ℤ) (ws wg t r hu : Option ℚ) :
    make_aprs_wx a b c (wrapI wd) (wrapF ws) (wrapF wg) (wrapF t) (wrapF r) (wrapF hu) (wrapI p) =
      some ("!" ++ a ++ "/" ++ b ++ "_" ++ strOrDotsI wd 3 ++ "/" ++ strOrDotsF ws 3 ++ "g" ++
        strOrDotsF wg 3 ++ "t" ++ strOrDotsF t 3 ++ "P" ++ strOrDotsF r 3 ++ "h" ++
        strOrDotsF hu 2 ++ "b" ++ strOrDotsI p 5 ++ c) := by
  cases wd <;> cases ws <;> cases wg <;> cases t <;> cases r <;> cases hu <;> cases p <;> rfl

/-! ## Claim C1 -/

/-- Claim C1, counterexample: the claim says `str_or_dots(v, n)` has length
`n` for every `None`, int or float input, but formatting the present int
`1000` at field width 3 yields the 4-character string `"1000"`. -/
theorem str_or_dots_overflow_cex :
    str_or_dots (Value.int 1000) 3 = some "1000" ∧ ("1000" : String).length ≠ 3 := by
  exact ⟨by decide, by decide⟩

/-- Claim C1, amended: for every field width `n`, formatting an absent value
yields exactly `n` placeholder characters, and formatting a present int or
float value yields a zero-padded string whose length is the maximum of `n`
and the number of characters of the plain rendering of the value (rounded to
the nearest whole unit for floats), sign included — so exactly `n`
characters whenever that rendering fits in `n` (this covers negative values
such as `str_or_dots(-40.0, 3) = "-40"`), and a longer string otherwise. -/
theorem str_or_dots_width_amended (n : Nat) (v : ℤ) (q : ℚ) :
    (str_or_dots Value.none n = some (String.mk (dotsL n)) ∧ (String.mk (dotsL n)).length = n) ∧
    (∃ s, str_or_dots (Value.int v) n = some s ∧ s.length = max n (intDecLen v)) ∧
    (∃ s, str_or_dots (Value.float q) n = some s ∧ s.length = max n (floatDecLen q)) ∧
    (intDecLen v ≤ n → ∃ s, str_or_dots (Value.int v) n = some s ∧ s.length = n) ∧
    (floatDecLen q ≤ n → ∃ s, str_or_dots (Value.float q) n = some s ∧ s.length = n) := by
  refine ⟨⟨rfl, ?_⟩, ⟨_, rfl, ?_⟩, ⟨_, rfl, ?_⟩, ?_, ?_⟩
  · rw [stringMk_length]
    simp [dotsL]
  · rw [stringMk_length]
    exact fmtIntPadL_length v n
  · rw [stringMk_length]
    exact fmtFloatPadL_length q n
  · intro h
    exact ⟨_, rfl, by rw [stringMk_length, fmtIntPadL_length]; exact Nat.max_eq_left h⟩
  · intro h
    exact ⟨_, rfl, by rw [stringMk_length, fmtFloatPadL_length]; exact Nat.max_eq_left h⟩

/-- Claim C1, witness: the amended statement evaluated at width 3 with the
in-range negative int −40 and the in-range negative float −40.0, both of
which render with exactly 3 characters. -/
theorem str_or_dots_width_amended_witness :
    (∃ s, str_or_dots (Value.int (-40)) 3 = some s ∧ s.length = 3) ∧
    (∃ s, str_or_dots (Value.float (mkRat (-40) 1)) 3 = some s ∧ s.length = 3) :=
  ⟨(str_or_dots_width_amended 3 (-40) (mkRat (-40) 1)).2.2.2.1 (by decide),
   (str_or_dots_width_amended 3 (-40) (mkRat (-40) 1)).2.2.2.2 (by decide)⟩

/-! ## Claim C2 -/

/-- Claim C2, counterexample: the claimed resolution order includes a
station-name derivation step before the default, but
`determine_aprs_call_for_file` takes no station name and returns the
configured default for any unmapped file, so for the file `IDS60910.94999.json`
with station name `Adelaide Airport` and an empty mapping the claimed
resolution yields `"Adelaide"` while the code yields `"VK5TRM-13"`. -/
theorem resolver_no_name_derivation_cex :
    claimed_resolve "IDS60910.94999.json" "Adelaide Airport" [] APRS_CALL = "Adelaide" ∧
    determine_aprs_call_for_file "IDS60910.94999.json" [] = "VK5TRM-13" ∧
    ("Adelaide" : String) ≠ "VK5TRM-13" := by
  exact ⟨by decide, by decide, by decide⟩

/-- Claim C2, amended: identity resolution is — (1) a present, non-empty
mapping entry for the file is the result; (2) a present-but-empty file entry
yields the default `APRS_CALL` immediately (it shadows any basename entry);
(3) otherwise, with no file entry, a present, non-empty basename entry is
the result; (4) a present-but-empty basename entry yields the default;
(5) otherwise the default `APRS_CALL`.  There is no station-name derivation
step.  Resolution is total and always yields a non-empty token. -/
theorem determine_aprs_call_resolution_amended (fn : String) (m : List (String × String)) :
    (∀ v, List.lookup fn m = some v → v ≠ "" → determine_aprs_call_for_file fn m = v) ∧
    (List.lookup fn m = some "" → determine_aprs_call_for_file fn m = APRS_CALL) ∧
    (∀ v, List.lookup fn m = Option.none → List.lookup (basename fn) m = some v → v ≠ "" →
      determine_aprs_call_for_file fn m = v) ∧
    (List.lookup fn m = Option.none → List.lookup (basename fn) m = some "" →
      determine_aprs_call_for_file fn m = APRS_CALL) ∧
    (List.lookup fn m = Option.none → List.lookup (basename fn) m = Option.none →
      determine_aprs_call_for_file fn m = APRS_CALL) ∧
    determine_aprs_call_for_file fn m ≠ "" := by
  refine ⟨?_, ?_, ?_, ?_, ?_, ?_⟩
  · intro v hv hne
    have hm : ¬ m = [] := by rintro rfl; simp at hv
    simp [determine_aprs_call_for_file, hm, hv, hne]
  · intro hv
    have hm : ¬ m = [] := by rintro rfl; simp at hv
    simp [determine_aprs_call_for_file, hm, hv]
  · intro v h1 h2 hne
    have hm : ¬ m = [] := by rintro rfl; simp at h2
    simp [determine_aprs_call_for_file, hm, h1, h2, hne]
  · intro h1 h2
    have hm : ¬ m = [] := by rintro rfl; simp at h2
    simp [determine_aprs_call_for_file, hm, h1, h2]
  · intro h1 h2
    by_cases hm : m = []
    · simp [determine_aprs_call_for_file, hm]
    · simp [determine_aprs_call_for_file, hm, h1, h2]
  · unfold determine_aprs_call_for_file
    by_cases hm : m = []
    · rw [if_pos hm]
      decide
    · rw [if_neg hm]
      cases h1 : List.lookup fn m with
      | some v =>
        by_cases hv : v = ""
        · rw [hv]
          simp only [if_pos rfl]
          decide
        · simp [hv]
      | none =>
        cases h2 : List.lookup (basename fn) m with
        | some v =>
          by_cases hv : v = ""
          · rw [hv]
            simp only [if_pos rfl]
            decide
          · simp [hv]
        | none => decide

/-- Claim C2, witness: the amended resolution evaluated on a basename hit,
on a present-but-empty file entry that shadows a non-empty basename entry,
and on an unmapped file. -/
theorem determine_aprs_call_resolution_amended_witness :
    determine_aprs_call_for_file "d/x.json" [("x.json", "VK5TRM-15")] = "VK5TRM-15" ∧
    determine_aprs_call_for_file "d/x.json"
      [("d/x.json", ""), ("x.json", "VK5TRM-15")] = APRS_CALL ∧
    determine_aprs_call_for_file "y.json" [("x.json", "VK5TRM-15")] = APRS_CALL :=
  ⟨(determine_aprs_call_resolution_amended "d/x.json" [("x.json", "VK5TRM-15")]).2.2.1
      "VK5TRM-15" (by decide) (by decide) (by decide),
   (determine_aprs_call_resolution_amended "d/x.json"
      [("d/x.json", ""), ("x.json", "VK5TRM-15")]).2.1 (by decide),
   (determine_aprs_call_resolution_amended "y.json" [("x.json", "VK5TRM-15")]).2.2.2.2.1
      (by decide) (by decide)⟩

/-! ## Claim C3 -/

/-- Claim C3, counterexample: the claim says the converted pressure equals
`round(p * 10)`, but the code computes `int(float(p) * 10)`, which truncates:
for `p = 1013.26` the code stores `10132` while `round(1013.26 * 10) = 10133`. -/
theorem pressure_trunc_not_round_cex :
    press_conv [("press", Value.float (mkRat 101326 100))] = some 10132 ∧
    roundHalfEven (qMul (mkRat 101326 100) (mkRat 10 1)) = 10133 ∧
    (10132 : ℤ) ≠ 10133 := by
  exact ⟨by decide, by decide, by decide⟩

/-- Claim C3, amended: for every numerically parseable station-pressure
field `p`, the converted pressure value equals `int(p * 10)`, the
tenths-of-hPa integer obtained by truncating `p * 10` toward zero (for
non-negative `p` this is the floor of `p * 10`), not by rounding to
nearest. -/
theorem pressure_conversion_amended (obs : Obs) (q : ℚ)
    (h : pyFloat (Obs.get obs "press" Value.none) = some q) :
    press_conv obs = some (truncRat (qMul q (mkRat 10 1))) ∧
    (0 ≤ q → truncRat (qMul q (mkRat 10 1)) = ⌊q * 10⌋) := by
  constructor
  · simp [press_conv, h]
  · intro h0
    have hq : qMul q (mkRat 10 1) = q * 10 := by
      rw [qMul_eq]
      norm_num [Rat.mkRat_eq_div]
    rw [hq]
    exact truncRat_of_nonneg _ (by positivity)

/-- Claim C3, witness: the amended statement evaluated at `p = 1013.2`. -/
theorem pressure_conversion_amended_witness :
    press_conv [("press", Value.float (mkRat 10132 10))] =
      some (truncRat (qMul (mkRat 10132 10) (mkRat 10 1))) ∧
    truncRat (qMul (mkRat 10132 10) (mkRat 10 1)) = ⌊(mkRat 10132 10 : ℚ) * 10⌋ :=
  ⟨(pressure_conversion_amended [("press", Value.float (mkRat 10132 10))]
      (mkRat 10132 10) (by decide)).1,
   (pressure_conversion_amended [("press", Value.float (mkRat 10132 10))]
      (mkRat 10132 10) (by decide)).2 (by decide)⟩

/-! ## Claim C4 -/

/-- Claim C4: for every observation dictionary, `bom_json_to_aprs` returns
`None` exactly when the latitude or the longitude value (defaulting to `0.0`
when the key is absent) cannot be parsed as a number; in every other case a
report string is produced, however many weather fields are missing or
invalid. -/
theorem encode_refuses_iff_position_unparseable (obs : Obs) (comment : String) :
    bom_json_to_aprs obs comment = Option.none ↔
      pyFloat (Obs.get obs "lat" (Value.float 0)) = Option.none ∨
      pyFloat (Obs.get obs "lon" (Value.float 0)) = Option.none := by
  unfold bom_json_to_aprs
  cases hlat : pyFloat (Obs.get obs "lat" (Value.float 0)) with
  | none => simp
  | some lat =>
    cases hlon : pyFloat (Obs.get obs "lon" (Value.float 0)) with
    | none => simp
    | some lon =>
      simp [make_aprs_wx_wrapped]

/-! ## Claim C5 -/

/-- Claim C5: wind-direction resolution tries the fixed 16-point compass
table first and falls back to numeric parsing only when the value is not a
table key: `"NE"` resolves to 45, `"CALM"` to 0, a numeric string to its
integer (truncated) degree value, and an unrecognized non-numeric string to
unavailable, which renders as the 3-character placeholder `"..."`. -/
theorem wind_dir_resolution :
    windDirResolve (Value.str "NE") = some 45 ∧
    windDirResolve (Value.str "CALM") = some 0 ∧
    (∀ s d, List.lookup s cardinal_lookup = some d → windDirResolve (Value.str s) = some d) ∧
    (∀ s q, List.lookup s cardinal_lookup = Option.none → parseFloatChars s.data = some q →
      windDirResolve (Value.str s) = some (truncRat q)) ∧
    (∀ s, List.lookup s cardinal_lookup = Option.none → parseFloatChars s.data = Option.none →
      windDirResolve (Value.str s) = Option.none) ∧
    str_or_dots Value.none 3 = some "..." := by
  refine ⟨by decide, by decide, ?_, ?_, ?_, by decide⟩
  · intro s d h
    simp [windDirResolve, h]
  · intro s q h1 h2
    simp [windDirResolve, h1, pyFloat, h2]
  · intro s h1 h2
    simp [windDirResolve, h1, pyFloat, h2]

/-- Claim C5, witness: the table-miss branches evaluated on the numeric
string `"45"` and the unrecognized string `"XX"`. -/
theorem wind_dir_resolution_witness :
    windDirResolve (Value.str "45") = some (truncRat (mkRat 45 1)) ∧
    windDirResolve (Value.str "XX") = Option.none := by
  have h := wind_dir_resolution
  exact ⟨h.2.2.2.1 "45" (mkRat 45 1) (by decide) (by decide),
    h.2.2.2.2.1 "XX" (by decide) (by decide)⟩

/-! ## Claim C6 -/

/-- Claim C6, counterexample: the claim says per-field widths never vary by
content, but a present value that needs more characters than the field's
width widens its token: wind direction 1000 renders as the 4-character token
`"1000"` in the 3-wide direction slot, and the full report carries it. -/
theorem report_width_overflow_cex :
    make_aprs_wx "0000.00S" "00000.00E" "C" (wrapI (some 1000)) (wrapF Option.none)
      (wrapF Option.none) (wrapF Option.none) (wrapF Option.none) (wrapF Option.none)
      (wrapI Option.none) =
      some "!0000.00S/00000.00E_1000/...g...t...P...h..b.....C" ∧
    (strOrDotsI (some 1000) 3).length ≠ 3 := by
  exact ⟨by decide, by decide⟩

/-- Claim C6, amended: every report produced by the encoder begins with
`'!'`, the latitude and longitude tokens, then the weather fields in the
fixed order direction, speed, gust, temperature, rain, humidity, pressure at
the fixed field widths 3, 3, 3, 3, 3, 2, 5, separated by the fixed
delimiters `_ / g t P h b`, and ends with the free-text commentary; an
unavailable value renders as a placeholder run of exactly the field's width,
and a present value renders as a token of exactly the field's width whenever
its plain rendering (sign included) fits in that width — a larger value
widens its token. -/
theorem report_structure_fixed_widths (a b c : String) (wd p : Option ℤ)
    (ws wg t r hu : Option ℚ) :
    make_aprs_wx a b c (wrapI wd) (wrapF ws) (wrapF wg) (wrapF t) (wrapF r) (wrapF hu) (wrapI p) =
      some ("!" ++ a ++ "/" ++ b ++ "_" ++ strOrDotsI wd 3 ++ "/" ++ strOrDotsF ws 3 ++ "g" ++
        strOrDotsF wg 3 ++ "t" ++ strOrDotsF t 3 ++ "P" ++ strOrDotsF r 3 ++ "h" ++
        strOrDotsF hu 2 ++ "b" ++ strOrDotsI p 5 ++ c) ∧
    (∀ n : Nat, strOrDotsF Option.none n = String.mk (dotsL n) ∧
      strOrDotsI Option.none n = String.mk (dotsL n) ∧ (String.mk (dotsL n)).length = n) ∧
    (∀ (v : ℤ) (n : Nat), intDecLen v ≤ n → (strOrDotsI (some v) n).length = n) ∧
    (∀ (x : ℚ) (n : Nat), floatDecLen x ≤ n → (strOrDotsF (some x) n).length = n) :=
  ⟨make_aprs_wx_wrapped a b c wd p ws wg t r hu,
   fun n => ⟨rfl, rfl, by rw [stringMk_length]; simp [dotsL]⟩,
   fun v n h => by
    show (String.mk (fmtIntPadL v n)).length = n
    rw [stringMk_length, fmtIntPadL_length]
    exact Nat.max_eq_left h,
   fun x n h => by
    show (String.mk (fmtFloatPadL x n)).length = n
    rw [stringMk_length, fmtFloatPadL_length]
    exact Nat.max_eq_left h⟩

/-- Claim C6, witness: the width guarantees of the amended statement
evaluated at the in-range direction 45 and the in-range temperature −40.0 at
width 3. -/
theorem report_structure_fixed_widths_witness :
    (strOrDotsI (some (45:ℤ)) 3).length = 3 ∧
    (strOrDotsF (some (mkRat (-40) 1)) 3).length = 3 :=
  ⟨(report_structure_fixed_widths "" "" "" Option.none Option.none Option.none Option.none
      Option.none Option.none Option.none).2.2.1 45 3 (by decide),
   (report_structure_fixed_widths "" "" "" Option.none Option.none Option.none Option.none
      Option.none Option.none Option.none).2.2.2 (mkRat (-40) 1) 3 (by decide)⟩

/-! ## Claim C7 -/

/-- Claim C7, counterexample: the claim quantifies over every parseable
position, but the parseable latitude `-100.5` renders with a three-digit
degree field: the token is `"10030.00S"`, 9 characters instead of the claimed
fixed width 8. -/
theorem position_width_overflow_cex :
    parseFloatChars "-100.5".data = some (mkRat (-201) 2) ∧
    latTokenOfRat (mkRat (-201) 2) = "10030.00S" ∧
    latShapeB "10030.00S" = false ∧ ("10030.00S" : String).length ≠ 8 := by
  exact ⟨by decide, by decide, by decide, by decide⟩

/-- Claim C7, amended: for every parseable position whose latitude is below
100 and longitude below 1000 in absolute value (in particular every valid
position), the latitude renders as two degree digits, two minute digits, a
point, two hundredths digits and a hemisphere letter `N`/`S`, and the
longitude as three degree digits, two minute digits, a point, two hundredths
digits and `E`/`W`; in particular latitude −34.9285 yields `"3455.71S"` and
longitude 138.6007 yields `"13836.04E"`. -/
theorem position_rendering_amended (lat lon : ℚ) (hlat : |lat| < 100) (hlon : |lon| < 1000) :
    latShapeB (latTokenOfRat lat) = true ∧ lonShapeB (lonTokenOfRat lon) = true ∧
    latTokenOfRat (mkRat (-349285) 10000) = "3455.71S" ∧
    lonTokenOfRat (mkRat 1386007 10000) = "13836.04E" := by
  refine ⟨?_, ?_, by decide, by decide⟩
  · obtain ⟨c1, c2, c3, c4, c5, c6, he, h1, h2, h3, h4, h5, h6⟩ := latTokenOfRat_shape lat hlat
    rw [he]
    by_cases hp : 0 < lat
    · simp [latShapeB, h1, h2, h3, h4, h5, h6, hp]
    · simp [latShapeB, h1, h2, h3, h4, h5, h6, hp]
  · obtain ⟨c1, c2, c3, c4, c5, c6, c7, he, h1, h2, h3, h4, h5, h6, h7⟩ :=
      lonTokenOfRat_shape lon hlon
    rw [he]
    by_cases hp : lon < 0
    · simp [lonShapeB, h1, h2, h3, h4, h5, h6, h7, hp]
    · simp [lonShapeB, h1, h2, h3, h4, h5, h6, h7, hp]

/-- Claim C7, witness: the amended statement evaluated at the position
(−34.9285, 138.6007). -/
theorem position_rendering_amended_witness :
    latShapeB (latTokenOfRat (mkRat (-349285) 10000)) = true ∧
    lonShapeB (lonTokenOfRat (mkRat 1386007 10000)) = true :=
  ⟨(position_rendering_amended (mkRat (-349285) 10000) (mkRat 1386007 10000)
      (by decide) (by decide)).1,
   (position_rendering_amended (mkRat (-349285) 10000) (mkRat 1386007 10000)
      (by decide) (by decide)).2.1⟩

/-! ## Claim C8 -/

/-- Claim C8: field conversion never propagates an error: for every
observation dictionary each weather-field conversion yields a converted
number or unavailable, and the values handed to `str_or_dots` at the widths
used by `make_aprs_wx` always make the type-name lookup inside `str_or_dots`
succeed. -/
theorem field_conversions_total_safe (obs : Obs) :
    (str_or_dots (wrapI (wind_dir_conv obs)) 3).isSome = true ∧
    (str_or_dots (wrapF (wspd_conv obs)) 3).isSome = true ∧
    (str_or_dots (wrapF (wgust_conv obs)) 3).isSome = true ∧
    (str_or_dots (wrapF (temp_conv obs)) 3).isSome = true ∧
    (str_or_dots (wrapF (rain_conv obs)) 3).isSome = true ∧
    (str_or_dots (wrapF (hum_conv obs)) 2).isSome = true ∧
    (str_or_dots (wrapI (press_conv obs)) 5).isSome = true := by
  refine ⟨?_, ?_, ?_, ?_, ?_, ?_, ?_⟩ <;>
    simp [str_or_dots_wrapF, str_or_dots_wrapI]

/-! ## Claim C9 -/

/-- Claim C9: session close is idempotent and silent: closing a
never-connected session is a no-op, closing twice is a no-op on the second
call, and close never raises (for any outcome of the underlying shutdown and
close socket calls), leaving no open socket afterwards. -/
theorem session_close_idempotent (f1 f2 : Bool) (c : APRSClient) :
    APRSClient.close f1 f2 { sock := Option.none } = Except.ok { sock := Option.none } ∧
    ∃ c', APRSClient.close f1 f2 c = Except.ok c' ∧ c'.sock = Option.none ∧
      APRSClient.close f1 f2 c' = Except.ok c' := by
  constructor
  · rfl
  · cases hc : c.sock with
    | none =>
      refine ⟨c, ?_, hc, ?_⟩ <;> simp [APRSClient.close, hc]
    | some s =>
      exact ⟨{ sock := Option.none }, by simp [APRSClient.close, hc], rfl, rfl⟩

/-! ## Claim C10 -/

/-- Claim C10, counterexample: the claim says the encoder does not refuse
whenever the latitude or longitude key is absent, but with the latitude key
absent and a longitude value that does not parse (`"xx"`) the encoder
returns `None`. -/
theorem missing_lat_refusal_cex :
    List.lookup "lat" [("lon", Value.str "xx")] = (Option.none : Option Value) ∧
    bom_json_to_aprs [("lon", Value.str "xx")] "BOMWX" = Option.none := by
  exact ⟨by decide, by decide⟩

/-- Claim C10, amended: an absent latitude (resp. longitude) key defaults to
`0.0`, and a latitude of exactly 0 renders as `"0000.00S"` (hemisphere `S`,
not `N`), a longitude of 0 as `"00000.00E"`; provided the other coordinate
parses (in particular when it is also absent), the encoder does not refuse
and produces a report carrying the zero token in the corresponding position;
when the other coordinate fails to parse the record is still refused. -/
theorem missing_position_defaults (obs : Obs) (c : String) :
    (List.lookup "lat" obs = Option.none →
      pyFloat (Obs.get obs "lat" (Value.float 0)) = some 0 ∧ latTokenOfRat 0 = "0000.00S") ∧
    (List.lookup "lon" obs = Option.none →
      pyFloat (Obs.get obs "lon" (Value.float 0)) = some 0 ∧ lonTokenOfRat 0 = "00000.00E") ∧
    (List.lookup "lat" obs = Option.none →
      ∀ lon, pyFloat (Obs.get obs "lon" (Value.float 0)) = some lon →
      ∃ rest : String, bom_json_to_aprs obs c =
        some ("!0000.00S/" ++ lonTokenOfRat lon ++ "_" ++ rest)) ∧
    (List.lookup "lon" obs = Option.none →
      ∀ lat, pyFloat (Obs.get obs "lat" (Value.float 0)) = some lat →
      ∃ rest : String, bom_json_to_aprs obs c =
        some ("!" ++ latTokenOfRat lat ++ "/00000.00E_" ++ rest)) ∧
    (List.lookup "lat" obs = Option.none → List.lookup "lon" obs = Option.none →
      ∃ rest : String, bom_json_to_aprs obs c = some ("!0000.00S/00000.00E_" ++ rest)) := by
  refine ⟨?_, ?_, ?_, ?_, ?_⟩
  · intro h
    have hg : Obs.get obs "lat" (Value.float 0) = Value.float 0 := by simp [Obs.get, h]
    exact ⟨by rw [hg]; decide, by decide⟩
  · intro h
    have hg : Obs.get obs "lon" (Value.float 0) = Value.float 0 := by simp [Obs.get, h]
    exact ⟨by rw [hg]; decide, by decide⟩
  · intro h lon hlon
    have hg : Obs.get obs "lat" (Value.float 0) = Value.float 0 := by simp [Obs.get, h]
    refine ⟨strOrDotsI (wind_dir_conv obs) 3 ++ "/" ++ strOrDotsF (wspd_conv obs) 3 ++ "g" ++
      strOrDotsF (wgust_conv obs) 3 ++ "t" ++ strOrDotsF (temp_conv obs) 3 ++ "P" ++
      strOrDotsF (rain_conv obs) 3 ++ "h" ++ strOrDotsF (hum_conv obs) 2 ++ "b" ++
      strOrDotsI (press_conv obs) 5 ++ c, ?_⟩
    unfold bom_json_to_aprs
    rw [hg, hlon]
    simp only [pyFloat, make_aprs_wx_wrapped]
    rw [show latTokenOfRat 0 = "0000.00S" from by decide,
      show ("!0000.00S/" : String) = "!" ++ "0000.00S" ++ "/" from by decide]
    simp only [String.append_assoc]
  · intro h lat hlat
    have hg : Obs.get obs "lon" (Value.float 0) = Value.float 0 := by simp [Obs.get, h]
    refine ⟨strOrDotsI (wind_dir_conv obs) 3 ++ "/" ++ strOrDotsF (wspd_conv obs) 3 ++ "g" ++
      strOrDotsF (wgust_conv obs) 3 ++ "t" ++ strOrDotsF (temp_conv obs) 3 ++ "P" ++
      strOrDotsF (rain_conv obs) 3 ++ "h" ++ strOrDotsF (hum_conv obs) 2 ++ "b" ++
      strOrDotsI (press_conv obs) 5 ++ c, ?_⟩
    unfold bom_json_to_aprs
    rw [hg, hlat]
    simp only [pyFloat, make_aprs_wx_wrapped]
    rw [show lonTokenOfRat 0 = "00000.00E" from by decide,
      show ("/00000.00E_" : String) = "/" ++ "00000.00E" ++ "_" from by decide]
    simp only [String.append_assoc]
  · intro h1 h2
    have hg1 : Obs.get obs "lat" (Value.float 0) = Value.float 0 := by simp [Obs.get, h1]
    have hg2 : Obs.get obs "lon" (Value.float 0) = Value.float 0 := by simp [Obs.get, h2]
    refine ⟨strOrDotsI (wind_dir_conv obs) 3 ++ "/" ++ strOrDotsF (wspd_conv obs) 3 ++ "g" ++
      strOrDotsF (wgust_conv obs) 3 ++ "t" ++ strOrDotsF (temp_conv obs) 3 ++ "P" ++
      strOrDotsF (rain_conv obs) 3 ++ "h" ++ strOrDotsF (hum_conv obs) 2 ++ "b" ++
      strOrDotsI (press_conv obs) 5 ++ c, ?_⟩
    unfold bom_json_to_aprs
    rw [hg1, hg2]
    simp only [pyFloat, make_aprs_wx_wrapped]
    rw [show latTokenOfRat 0 = "0000.00S" from by decide,
      show lonTokenOfRat 0 = "00000.00E" from by decide,
      show ("!0000.00S/00000.00E_" : String) = "!" ++ "0000.00S" ++ "/" ++ "00000.00E" ++ "_"
        from by decide]
    simp only [String.append_assoc]

/-- Claim C10, witness: the amended statement evaluated with only the
latitude key absent (longitude 138.6007 present and parseable) and with both
keys absent. -/
theorem missing_position_defaults_witness :
    (∃ rest : String, bom_json_to_aprs [("lon", Value.float (mkRat 1386007 10000))] "BOMWX" =
      some ("!0000.00S/" ++ lonTokenOfRat (mkRat 1386007 10000) ++ "_" ++ rest)) ∧
    (∃ rest : String, bom_json_to_aprs ([] : Obs) "BOMWX" =
      some ("!0000.00S/00000.00E_" ++ rest)) :=
  ⟨(missing_position_defaults [("lon", Value.float (mkRat 1386007 10000))] "BOMWX").2.2.1
      (by decide) (mkRat 1386007 10000) (by decide),
   (missing_position_defaults [] "BOMWX").2.2.2.2 (by decide) (by decide)⟩
